import Mathlib

/-!
# Gate-pass service: shallow embedding of `src/server.js`

This file embeds the core request-lifecycle and pass-validation logic of the
gate-pass server (`src/server.js`) into Lean and proves properties of it.

Modelling conventions:
* Timestamps are `Nat` milliseconds (JS `Date.getTime()`); the ISO-string
  round trip is the identity in this model.
* An HTTP JSON body field is an `Option` value: `none` is an absent field.
  The JS truthiness test `!x` on a string field is `x = none ∨ x = some ""`
  (both `undefined` and `""` are falsy in JS); on the numeric `duration`
  field it is `none ∨ some 0`.
* The store (`database.json`) is a `DB` record of three lists; every
  mutating handler is a function `DB → inputs → DB × Except Err output`,
  returning the new store and the HTTP outcome. `writeDB` is the identity
  commit of the in-memory structure (IO failure is out of scope).
* QR encoding (`QRCode.toDataURL`) is an injected function
  `PassPayload → Option String`; `none` models a thrown encoding error.
* `generateID` is an injected fresh identifier (`newId` argument).
-/

namespace GatePass

/-- A user record (`db.users` element). -/
structure User where
  id : String
  name : String
  username : String
  password : String
  role : String
  email : String
deriving Repr, DecidableEq

/-- The QR payload (`qrData`) built by the approve handler and embedded in
the Request; also the parsed form of a scanned QR code. -/
structure PassPayload where
  passId : String
  studentId : String
  studentName : String
  reason : String
  approvedAt : Nat
  expiresAt : Nat
  used : Bool
deriving Repr, DecidableEq

/-- A gate-pass request (`db.requests` element).  Fields that the JS code
leaves `null` or absent are `Option`s. -/
structure Request where
  id : String
  studentId : String
  studentName : String
  reason : String
  expectedTime : String
  duration : Nat
  status : String
  createdAt : Nat
  moderatorRemarks : Option String
  qrCode : Option String
  approvedAt : Option Nat
  expiresAt : Option Nat
  qrData : Option PassPayload
  rejectionReason : Option String
  rejectedAt : Option Nat
deriving Repr, DecidableEq

/-- An entry/exit log record (`db.logs` element). -/
structure LogEntry where
  id : String
  passId : String
  studentId : String
  studentName : String
  type : String
  timestamp : Nat
  reason : String
deriving Repr, DecidableEq

/-- The whole persisted store (`database.json`). -/
structure DB where
  users : List User
  requests : List Request
  logs : List LogEntry
deriving Repr, DecidableEq

/-- Error taxonomy of the handlers (HTTP error responses). -/
inductive Err where
  | invalidArgument
  | notFound
  | invalidState
  | encodingFailure
deriving Repr, DecidableEq

/-- JS truthiness test `!x` for an optional string body field:
true when the field is absent or the empty string. -/
def strFalsy : Option String → Bool
  | none => true
  | some s => s == ""

/-- JS truthiness test `!x` for the numeric `duration` body field:
true when the field is absent or zero. -/
def natFalsy : Option Nat → Bool
  | none => true
  | some n => n == 0

/-- Replace the first element satisfying `p` by `f` applied to it — the
effect of mutating the object returned by `Array.prototype.find`. -/
def updateFirst (p : α → Bool) (f : α → α) : List α → List α
  | [] => []
  | x :: xs => if p x then f x :: xs else x :: updateFirst p f xs

/-- `POST /api/requests/create`: validate the four body fields (JS `!` on
each), resolve the student, and append a fresh pending Request. -/
def createRequest (db : DB) (studentId reason expectedTime : Option String)
    (duration : Option Nat) (now : Nat) (newId : String) :
    DB × Except Err Request :=
  if strFalsy studentId || strFalsy reason || strFalsy expectedTime ||
      natFalsy duration then
    (db, .error .invalidArgument)
  else
    match studentId, reason, expectedTime, duration with
    | some sid, some rsn, some et, some d =>
      match db.users.find? (fun u => u.id == sid && u.role == "student") with
      | none => (db, .error .notFound)
      | some student =>
        let newRequest : Request :=
          { id := newId
            studentId := sid
            studentName := student.name
            reason := rsn
            expectedTime := et
            duration := d
            status := "pending"
            createdAt := now
            moderatorRemarks := none
            qrCode := none
            approvedAt := none
            expiresAt := none
            qrData := none
            rejectionReason := none
            rejectedAt := none }
        ({ db with requests := db.requests ++ [newRequest] }, .ok newRequest)
    | _, _, _, _ => (db, .error .invalidArgument)

/-- The remarks default of the approve handler: a falsy `remarks` body
field (absent or empty) is replaced by the literal `"Approved"`. -/
def remarksOrDefault : Option String → String
  | none => "Approved"
  | some s => if s == "" then "Approved" else s

/-- `POST /api/requests/approve`: find the pending request, compute the
expiry, build the `qrData` payload, encode it (`encode`, `none` = the
`QRCode.toDataURL` promise rejected), and only on encoding success commit
status/remarks/approvedAt/expiresAt/qrCode/qrData. -/
def approve (db : DB) (requestId remarks : Option String) (now : Nat)
    (encode : PassPayload → Option String) : DB × Except Err Request :=
  if strFalsy requestId then (db, .error .invalidArgument)
  else
    match requestId with
    | none => (db, .error .invalidArgument)
    | some rid =>
      match db.requests.find? (fun r => r.id == rid) with
      | none => (db, .error .notFound)
      | some request =>
        if request.status != "pending" then (db, .error .invalidState)
        else
          let expiryTime := now + request.duration * 60 * 60 * 1000
          let qrData : PassPayload :=
            { passId := request.id
              studentId := request.studentId
              studentName := request.studentName
              reason := request.reason
              approvedAt := now
              expiresAt := expiryTime
              used := false }
          match encode qrData with
          | none => (db, .error .encodingFailure)
          | some qrCodeURL =>
            let updated : Request :=
              { request with
                status := "approved"
                moderatorRemarks := some (remarksOrDefault remarks)
                approvedAt := some now
                expiresAt := some expiryTime
                qrCode := some qrCodeURL
                qrData := some qrData }
            let requests :=
              updateFirst (fun r => r.id == rid) (fun _ => updated)
                db.requests
            ({ db with requests := requests }, .ok updated)

/-- `POST /api/requests/reject`: find the pending request and commit
status/rejectionReason/rejectedAt. -/
def reject (db : DB) (requestId reason : Option String) (now : Nat) :
    DB × Except Err Request :=
  if strFalsy requestId || strFalsy reason then (db, .error .invalidArgument)
  else
    match requestId, reason with
    | some rid, some rsn =>
      match db.requests.find? (fun r => r.id == rid) with
      | none => (db, .error .notFound)
      | some request =>
        if request.status != "pending" then (db, .error .invalidState)
        else
          let updated : Request :=
            { request with
              status := "rejected"
              rejectionReason := some rsn
              rejectedAt := some now }
          let requests :=
            updateFirst (fun r => r.id == rid) (fun _ => updated)
              db.requests
          ({ db with requests := requests }, .ok updated)
    | _, _ => (db, .error .invalidArgument)

/-- The verification response `{valid, message, color, details?}`. -/
structure VerifyResult where
  valid : Bool
  message : String
  color : String
  details : Option PassPayload
deriving Repr, DecidableEq

/-- `POST /api/qr/verify` after JSON parsing succeeded: decide on the
parsed payload and the stored request, in the source's branch order
(existence, approval, single-use, expiry).  Read-only: the handler never
writes the store. -/
def verify (db : DB) (now : Nat) (parsedData : PassPayload) : VerifyResult :=
  match db.requests.find? (fun r => r.id == parsedData.passId) with
  | none =>
    { valid := false
      message := "Pass not found"
      color := "red"
      details := none }
  | some request =>
    if request.status != "approved" then
      { valid := false
        message := "Pass not approved"
        color := "red"
        details := none }
    else if parsedData.used then
      { valid := false
        message := "Pass already used"
        color := "red"
        details := none }
    else if now > parsedData.expiresAt then
      { valid := false
        message := "Pass expired"
        color := "red"
        details := some parsedData }
    else
      { valid := true
        message := "Valid pass"
        color := "green"
        details := some parsedData }

/-- `POST /api/logs/entry`: find the request by `passId`; if it carries a
`qrData` payload, set that payload's `used` flag; append a LogEntry
snapshotting studentId/studentName/reason, with the given `type` verbatim.
The body's `qrData` field is destructured but never used by the handler. -/
def recordEntry (db : DB) (passId ty : Option String) (now : Nat)
    (newId : String) : DB × Except Err LogEntry :=
  if strFalsy passId || strFalsy ty then (db, .error .invalidArgument)
  else
    match passId, ty with
    | some pid, some t =>
      match db.requests.find? (fun r => r.id == pid) with
      | none => (db, .error .notFound)
      | some request =>
        let updated : Request :=
          match request.qrData with
          | none => request
          | some q => { request with qrData := some { q with used := true } }
        let logEntry : LogEntry :=
          { id := newId
            passId := pid
            studentId := request.studentId
            studentName := request.studentName
            type := t
            timestamp := now
            reason := request.reason }
        let requests :=
          updateFirst (fun r => r.id == pid) (fun _ => updated) db.requests
        ({ db with
            requests := requests
            logs := db.logs ++ [logEntry] },
         .ok logEntry)
    | _, _ => (db, .error .invalidArgument)

/-! ## Helper lemmas about `updateFirst` and `List.find?` -/

theorem length_updateFirst (p : α → Bool) (f : α → α) (l : List α) :
    (updateFirst p f l).length = l.length := by
  induction l with
  | nil => rfl
  | cons a l ih =>
    by_cases hpa : p a <;> simp [updateFirst, hpa, ih]

theorem find?_updateFirst (p : α → Bool) (u x : α) (l : List α)
    (hu : p u = true) (h : l.find? p = some x) :
    (updateFirst p (fun _ => u) l).find? p = some u := by
  induction l with
  | nil => simp at h
  | cons a l ih =>
    by_cases hpa : p a
    · simp [updateFirst, hpa, List.find?_cons_of_pos _ hu]
    · rw [List.find?_cons_of_neg _ hpa] at h
      simp [updateFirst, hpa, List.find?_cons_of_neg _ hpa, ih h]

theorem updateFirst_getElem? (p : α → Bool) (f : α → α) (l : List α)
    (i : Nat) :
    (updateFirst p f l)[i]? = l[i]? ∨
      ∃ y, l[i]? = some y ∧ l.find? p = some y ∧
        (updateFirst p f l)[i]? = some (f y) := by
  induction l generalizing i with
  | nil => left; rfl
  | cons a l ih =>
    by_cases hpa : p a
    · cases i with
      | zero =>
        right
        exact ⟨a, by simp, List.find?_cons_of_pos _ hpa,
          by simp [updateFirst, hpa]⟩
      | succ j => left; simp [updateFirst, hpa]
    · cases i with
      | zero => left; simp [updateFirst, hpa]
      | succ j =>
        rcases ih j with h | ⟨y, hy, hfind, hget⟩
        · left; simpa [updateFirst, hpa] using h
        · right
          exact ⟨y, by simpa using hy,
            by rw [List.find?_cons_of_neg _ hpa]; exact hfind,
            by simpa [updateFirst, hpa] using hget⟩

theorem updateFirst_self (p : α → Bool) (x : α) (l : List α)
    (h : l.find? p = some x) : updateFirst p (fun _ => x) l = l := by
  induction l with
  | nil => rfl
  | cons a l ih =>
    by_cases hpa : p a
    · rw [List.find?_cons_of_pos _ hpa] at h
      cases h
      simp [updateFirst, hpa]
    · rw [List.find?_cons_of_neg _ hpa] at h
      simp [updateFirst, hpa, ih h]

/-! ## Sample data used by witnesses and counterexamples -/

/-- A provisioned student user. -/
def studentAlice : User :=
  { id := "s1", name := "Alice", username := "alice", password := "pw",
    role := "student", email := "alice@example.com" }

/-- A pending request, as `createRequest` produces it. -/
def pendingReq : Request :=
  { id := "REQ1", studentId := "s1", studentName := "Alice",
    reason := "medical", expectedTime := "17:00", duration := 2,
    status := "pending", createdAt := 10, moderatorRemarks := none,
    qrCode := none, approvedAt := none, expiresAt := none, qrData := none,
    rejectionReason := none, rejectedAt := none }

/-- The pass payload embedded in `approvedReq`. -/
def approvedPayload : PassPayload :=
  { passId := "REQ2", studentId := "s1", studentName := "Alice",
    reason := "travel", approvedAt := 20, expiresAt := 7200020,
    used := false }

/-- An approved request carrying its pass payload. -/
def approvedReq : Request :=
  { id := "REQ2", studentId := "s1", studentName := "Alice",
    reason := "travel", expectedTime := "09:00", duration := 2,
    status := "approved", createdAt := 10,
    moderatorRemarks := some "ok", qrCode := some "data:image/png;base64",
    approvedAt := some 20, expiresAt := some 7200020,
    qrData := some approvedPayload, rejectionReason := none,
    rejectedAt := none }

/-- A store holding the student, one pending and one approved request. -/
def dbSample : DB :=
  { users := [studentAlice], requests := [pendingReq, approvedReq],
    logs := [] }

/-! ## Claim theorems -/

/-- C1: `verify` short-circuits in the exact order existence, approval,
single-use, expiry: "Pass not found" (red, invalid) when no stored Request
matches `payload.passId`; else "Pass not approved" when the match's status
is not `approved`; else "Pass already used" when the payload's `used` flag
is set, regardless of expiry; else "Pass expired" with `details = payload`
when the current time is strictly greater than `payload.expiresAt`; else
"Valid pass" (green, valid) with `details = payload`. -/
theorem verify_branch_order (db : DB) (now : Nat) (p : PassPayload) :
    ((∀ r ∈ db.requests, r.id ≠ p.passId) →
      verify db now p = ⟨false, "Pass not found", "red", none⟩) ∧
    (∀ r, db.requests.find? (fun s => s.id == p.passId) = some r →
      r.status ≠ "approved" →
      verify db now p = ⟨false, "Pass not approved", "red", none⟩) ∧
    (∀ r, db.requests.find? (fun s => s.id == p.passId) = some r →
      r.status = "approved" → p.used = true →
      verify db now p = ⟨false, "Pass already used", "red", none⟩) ∧
    (∀ r, db.requests.find? (fun s => s.id == p.passId) = some r →
      r.status = "approved" → p.used = false → now > p.expiresAt →
      verify db now p = ⟨false, "Pass expired", "red", some p⟩) ∧
    (∀ r, db.requests.find? (fun s => s.id == p.passId) = some r →
      r.status = "approved" → p.used = false → ¬ now > p.expiresAt →
      verify db now p = ⟨true, "Valid pass", "green", some p⟩) := by
  refine ⟨?_, ?_, ?_, ?_, ?_⟩
  · intro h
    have hf : db.requests.find? (fun s => s.id == p.passId) = none := by
      rw [List.find?_eq_none]
      intro x hx
      simpa using h x hx
    simp [verify, hf]
  · intro r hf hs
    simp [verify, hf, hs]
  · intro r hf hs hu
    simp [verify, hf, hs, hu]
  · intro r hf hs hu hexp
    simp [verify, hf, hs, hu, hexp]
  · intro r hf hs hu hexp
    simp [verify, hf, hs, hu, hexp]

/-- Witness for C1: the valid-pass branch on a concrete store, fresh
payload and an in-horizon clock. -/
theorem verify_branch_order_witness :
    verify dbSample 100 approvedPayload =
      ⟨true, "Valid pass", "green", some approvedPayload⟩ :=
  (verify_branch_order dbSample 100 approvedPayload).2.2.2.2 approvedReq
    (by decide) (by decide) (by decide) (by decide)

/-- Helper: a well-formed `recordEntry` call on a request that carries a
pass payload stores that payload with `used := true`, for every `type`
string and every prior value of `used`. -/
theorem recordEntry_marks_used_stored (db : DB) (pid t : String) (now : Nat)
    (newId : String) (r : Request) (q : PassPayload) (hpid : pid ≠ "")
    (ht : t ≠ "") (hfind : db.requests.find? (fun s => s.id == pid) = some r)
    (hq : r.qrData = some q) :
    (recordEntry db (some pid) (some t) now newId).1.requests.find?
        (fun s => s.id == pid) =
      some { r with qrData := some { q with used := true } } := by
  have h1 : strFalsy (some pid) = false := by simp [strFalsy, hpid]
  have h2 : strFalsy (some t) = false := by simp [strFalsy, ht]
  have hpr : ((fun s : Request => s.id == pid)
      { r with qrData := some { q with used := true } }) = true := by
    simpa using List.find?_some hfind
  simp only [recordEntry, h1, h2, Bool.or_self, Bool.false_or, if_false,
    Bool.false_eq_true, hfind, hq]
  exact find?_updateFirst _ _ r _ hpr hfind

/-- C2: the embedded pass payload's `used` flag is `false` right after a
successful approve; a `recordEntry` call for that pass stores it as `true`
unconditionally, for every `type` string (both `entry` and `exit`) and
independently of any prior `verify` call (which never writes the store);
a second `recordEntry` call leaves it `true`. -/
theorem used_flag_lifecycle :
    (∀ db requestId remarks now enc db2 r2,
      approve db requestId remarks now enc = (db2, Except.ok r2) →
      ∃ q, r2.qrData = some q ∧ q.used = false) ∧
    (∀ db pid t now newId r q, pid ≠ "" → t ≠ "" →
      db.requests.find? (fun s => s.id == pid) = some r →
      r.qrData = some q →
      (recordEntry db (some pid) (some t) now newId).1.requests.find?
          (fun s => s.id == pid) =
        some { r with qrData := some { q with used := true } }) ∧
    (∀ db pid t t2 now now2 newId newId2 r q,
      pid ≠ "" → t ≠ "" → t2 ≠ "" →
      db.requests.find? (fun s => s.id == pid) = some r →
      r.qrData = some q →
      (recordEntry (recordEntry db (some pid) (some t) now newId).1
          (some pid) (some t2) now2 newId2).1.requests.find?
          (fun s => s.id == pid) =
        some { r with qrData := some { q with used := true } }) := by
  refine ⟨?_, ?_, ?_⟩
  · intro db requestId remarks now enc db2 r2 h
    simp only [approve] at h
    split at h
    · simp at h
    · split at h
      · simp at h
      · split at h
        · simp at h
        · split at h
          · simp at h
          · split at h
            · simp at h
            · simp only [Prod.mk.injEq] at h
              obtain ⟨-, h2⟩ := h
              cases h2
              exact ⟨_, rfl, rfl⟩
  · intro db pid t now newId r q hpid ht hfind hq
    exact recordEntry_marks_used_stored db pid t now newId r q hpid ht
      hfind hq
  · intro db pid t t2 now now2 newId newId2 r q hpid ht ht2 hfind hq
    have h1 := recordEntry_marks_used_stored db pid t now newId r q hpid ht
      hfind hq
    exact recordEntry_marks_used_stored _ pid t2 now2 newId2
      { r with qrData := some { q with used := true } }
      { q with used := true } hpid ht2 h1 rfl

/-- Witness for C2: recording an entry against the approved sample request
stores its payload with `used = true`. -/
theorem used_flag_lifecycle_witness :
    (recordEntry dbSample (some "REQ2") (some "entry") 40
        "LOG1").1.requests.find? (fun s => s.id == "REQ2") =
      some { approvedReq with
              qrData := some { approvedPayload with used := true } } :=
  used_flag_lifecycle.2.1 dbSample "REQ2" "entry" 40 "LOG1" approvedReq
    approvedPayload (by decide) (by decide) (by decide) (by decide)

/-- C3: when the QR encoding step fails during approve, the whole approval
is rejected atomically: the handler returns `EncodingFailure` with the
store unchanged (the returned store is the input store), so the request is
still stored exactly as found — its status stays `pending` and none of
`moderatorRemarks`, `approvedAt`, `expiresAt`, `qrCode` or `qrData` are
set. -/
theorem approve_encoding_failure_atomic (db : DB) (rid : String)
    (remarks : Option String) (now : Nat)
    (enc : PassPayload → Option String) (r : Request) (hrid : rid ≠ "")
    (hfind : db.requests.find? (fun s => s.id == rid) = some r)
    (hpend : r.status = "pending")
    (henc : enc
      { passId := r.id
        studentId := r.studentId
        studentName := r.studentName
        reason := r.reason
        approvedAt := now
        expiresAt := now + r.duration * 60 * 60 * 1000
        used := false } = none) :
    approve db (some rid) remarks now enc =
      (db, Except.error Err.encodingFailure) ∧
    (approve db (some rid) remarks now enc).1.requests.find?
      (fun s => s.id == rid) = some r := by
  have h1 : strFalsy (some rid) = false := by simp [strFalsy, hrid]
  have heq : approve db (some rid) remarks now enc =
      (db, Except.error Err.encodingFailure) := by
    simp [approve, h1, hfind, hpend, henc]
  exact ⟨heq, by rw [heq]; exact hfind⟩

/-- Witness for C3: a concrete always-failing encoder leaves the sample
store untouched and reports `EncodingFailure`. -/
theorem approve_encoding_failure_atomic_witness :
    approve dbSample (some "REQ1") none 20 (fun _ => none) =
      (dbSample, Except.error Err.encodingFailure) ∧
    (approve dbSample (some "REQ1") none 20 (fun _ => none)).1.requests.find?
      (fun s => s.id == "REQ1") = some pendingReq :=
  approve_encoding_failure_atomic dbSample "REQ1" none 20 (fun _ => none)
    pendingReq (by decide) (by decide) (by decide) rfl

/-- C4: every successfully approved request records
`expiresAt = approvedAt + duration * 60 * 60 * 1000` exactly, with
`approvedAt` the approval time. -/
theorem approve_expiry (db : DB) (requestId remarks : Option String)
    (now : Nat) (enc : PassPayload → Option String) (db2 : DB)
    (r2 : Request)
    (h : approve db requestId remarks now enc = (db2, Except.ok r2)) :
    r2.approvedAt = some now ∧
    r2.expiresAt = some (now + r2.duration * 60 * 60 * 1000) := by
  simp only [approve] at h
  split at h
  · simp at h
  · split at h
    · simp at h
    · split at h
      · simp at h
      · split at h
        · simp at h
        · split at h
          · simp at h
          · simp only [Prod.mk.injEq] at h
            obtain ⟨-, h2⟩ := h
            cases h2
            exact ⟨rfl, rfl⟩

/-- The `qrData` payload of `approvedReq1`. -/
def approvedPayload1 : PassPayload :=
  { passId := "REQ1", studentId := "s1", studentName := "Alice",
    reason := "medical", approvedAt := 20, expiresAt := 7200020,
    used := false }

/-- `pendingReq` after approval at time 20 with a 2-hour duration. -/
def approvedReq1 : Request :=
  { pendingReq with
    status := "approved"
    moderatorRemarks := some "Approved"
    approvedAt := some 20
    expiresAt := some 7200020
    qrCode := some "URL"
    qrData := some approvedPayload1 }

/-- `dbSample` after approving `pendingReq`. -/
def dbApproved1 : DB :=
  { dbSample with requests := [approvedReq1, approvedReq] }

/-- Witness for C4: approving the 2-hour sample request at time 20 yields
`expiresAt = 20 + 2 * 60 * 60 * 1000 = 7200020`. -/
theorem approve_expiry_witness :
    approvedReq1.approvedAt = some 20 ∧
    approvedReq1.expiresAt =
      some (20 + approvedReq1.duration * 60 * 60 * 1000) :=
  approve_expiry dbSample (some "REQ1") none 20 (fun _ => some "URL")
    dbApproved1 approvedReq1 rfl

/-! ## The store as a transition system (for the status-terminality claim) -/

/-- One invocation of a core operation, with all its client-supplied and
environment-supplied inputs. -/
inductive Op where
  | createStep (studentId reason expectedTime : Option String)
      (duration : Option Nat) (now : Nat) (newId : String)
  | approveStep (requestId remarks : Option String) (now : Nat)
      (encode : PassPayload → Option String)
  | rejectStep (requestId reason : Option String) (now : Nat)
  | verifyStep (now : Nat) (payload : PassPayload)
  | logStep (passId ty : Option String) (now : Nat) (newId : String)

/-- The store after one operation.  The verify handler never writes the
store, so its step is the identity on the store. -/
def applyOp : Op → DB → DB
  | .createStep sid rsn et d now nid, db =>
    (createRequest db sid rsn et d now nid).1
  | .approveStep rid rem now enc, db => (approve db rid rem now enc).1
  | .rejectStep rid rsn now, db => (reject db rid rsn now).1
  | .verifyStep _ _, db => db
  | .logStep pid t now nid, db => (recordEntry db pid t now nid).1

/-- Helper: `createRequest` either leaves the store unchanged or appends
one request at the end. -/
theorem createRequest_fst_cases (db : DB)
    (sid rsn et : Option String) (d : Option Nat) (now : Nat)
    (nid : String) :
    (createRequest db sid rsn et d now nid).1 = db ∨
    ∃ newReq,
      (createRequest db sid rsn et d now nid).1 =
        { db with requests := db.requests ++ [newReq] } := by
  simp only [createRequest]
  split
  · left; rfl
  · split
    · split
      · left; rfl
      · right; exact ⟨_, rfl⟩
    · left; rfl

/-- Helper: `approve` either leaves the store unchanged, or replaces the
first request matching the given id — a request whose status was
`pending`. -/
theorem approve_fst_cases (db : DB) (requestId remarks : Option String)
    (now : Nat) (enc : PassPayload → Option String) :
    (approve db requestId remarks now enc).1.requests = db.requests ∨
    ∃ rid request f,
      db.requests.find? (fun s => s.id == rid) = some request ∧
      request.status = "pending" ∧
      (approve db requestId remarks now enc).1.requests =
        updateFirst (fun s => s.id == rid) f db.requests := by
  simp only [approve]
  split
  · left; rfl
  · split
    · left; rfl
    · split
      · left; rfl
      · split
        · left; rfl
        · split
          · left; rfl
          · right
            exact ⟨_, _, _, by assumption, by simp_all [bne_iff_ne], rfl⟩

/-- Helper: `reject` either leaves the store unchanged, or replaces the
first request matching the given id — a request whose status was
`pending`. -/
theorem reject_fst_cases (db : DB) (requestId reason : Option String)
    (now : Nat) :
    (reject db requestId reason now).1.requests = db.requests ∨
    ∃ rid request f,
      db.requests.find? (fun s => s.id == rid) = some request ∧
      request.status = "pending" ∧
      (reject db requestId reason now).1.requests =
        updateFirst (fun s => s.id == rid) f db.requests := by
  simp only [reject]
  split
  · left; rfl
  · split
    · split
      · left; rfl
      · split
        · left; rfl
        · right
          exact ⟨_, _, _, by assumption, by simp_all [bne_iff_ne], rfl⟩
    · left; rfl

/-- Helper: `recordEntry` either leaves the request list unchanged, or
replaces the first request matching the given id by one with the same id
and the same status. -/
theorem recordEntry_fst_cases (db : DB) (passId ty : Option String)
    (now : Nat) (nid : String) :
    (recordEntry db passId ty now nid).1.requests = db.requests ∨
    ∃ pid request f,
      db.requests.find? (fun s => s.id == pid) = some request ∧
      (f request).id = request.id ∧ (f request).status = request.status ∧
      (recordEntry db passId ty now nid).1.requests =
        updateFirst (fun s => s.id == pid) f db.requests := by
  simp only [recordEntry]
  split
  · left; rfl
  · split
    · split
      · left; rfl
      · right
        exact ⟨_, _, _, by assumption, by split <;> rfl,
          by split <;> rfl, rfl⟩
    · left; rfl

/-- Helper: one operation preserves the id and the status of every stored
request whose status is not `pending`. -/
theorem applyOp_preserves_settled (op : Op) (db : DB) (i : Nat)
    (r : Request) (hr : db.requests[i]? = some r)
    (hs : r.status ≠ "pending") :
    ∃ r', (applyOp op db).requests[i]? = some r' ∧ r'.id = r.id ∧
      r'.status = r.status := by
  have hi : i < db.requests.length := (List.getElem?_eq_some.mp hr).1
  cases op with
  | createStep sid rsn et d now nid =>
    rcases createRequest_fst_cases db sid rsn et d now nid with h | ⟨w, h⟩
    · exact ⟨r, by simp [applyOp, h, hr], rfl, rfl⟩
    · refine ⟨r, ?_, rfl, rfl⟩
      simp only [applyOp, h]
      rw [List.getElem?_append, if_pos hi]
      exact hr
  | approveStep rid rem now enc =>
    rcases approve_fst_cases db rid rem now enc with h |
      ⟨pid, request, f, hfind, hpend, h⟩
    · exact ⟨r, by simp [applyOp, h, hr], rfl, rfl⟩
    · rcases updateFirst_getElem? (fun s => s.id == pid) f
        db.requests i with hu | ⟨y, hy, hfy, hgy⟩
      · exact ⟨r, by simp [applyOp, h, hu, hr], rfl, rfl⟩
      · rw [hr] at hy
        cases hy
        rw [hfind] at hfy
        cases hfy
        exact absurd hpend hs
  | rejectStep rid rsn now =>
    rcases reject_fst_cases db rid rsn now with h |
      ⟨pid, request, f, hfind, hpend, h⟩
    · exact ⟨r, by simp [applyOp, h, hr], rfl, rfl⟩
    · rcases updateFirst_getElem? (fun s => s.id == pid) f
        db.requests i with hu | ⟨y, hy, hfy, hgy⟩
      · exact ⟨r, by simp [applyOp, h, hu, hr], rfl, rfl⟩
      · rw [hr] at hy
        cases hy
        rw [hfind] at hfy
        cases hfy
        exact absurd hpend hs
  | verifyStep now p => exact ⟨r, hr, rfl, rfl⟩
  | logStep pid t now nid =>
    rcases recordEntry_fst_cases db pid t now nid with h |
      ⟨qid, request, f, hfind, hid, hst, h⟩
    · exact ⟨r, by simp [applyOp, h, hr], rfl, rfl⟩
    · rcases updateFirst_getElem? (fun s => s.id == qid) f
        db.requests i with hu | ⟨y, hy, hfy, hgy⟩
      · exact ⟨r, by simp [applyOp, h, hu, hr], rfl, rfl⟩
      · rw [hr] at hy
        cases hy
        rw [hfind] at hfy
        cases hfy
        refine ⟨f r, ?_, hid, hst⟩
        simp only [applyOp, DB.requests] at h ⊢
        rw [h]
        exact hgy

/-- C5: for every store state and every sequence of core operations, a
stored request whose status is not `pending` keeps its id and its status
forever: `approved` and `rejected` are terminal, no transition between
them ever happens, and hence a request's status moves away from `pending`
at most once. -/
theorem status_transitions_terminal (ops : List Op) (db : DB) (i : Nat)
    (r : Request) (hr : db.requests[i]? = some r)
    (hs : r.status ≠ "pending") :
    ∃ r', (ops.foldl (fun d op => applyOp op d) db).requests[i]? = some r' ∧
      r'.id = r.id ∧ r'.status = r.status := by
  induction ops generalizing db r with
  | nil => exact ⟨r, hr, rfl, rfl⟩
  | cons op ops ih =>
    obtain ⟨r1, hr1, hid1, hst1⟩ := applyOp_preserves_settled op db i r hr hs
    obtain ⟨r2, hr2, hid2, hst2⟩ :=
      ih (applyOp op db) r1 hr1 (by rw [hst1]; exact hs)
    exact ⟨r2, by simpa using hr2, hid2.trans hid1, hst2.trans hst1⟩

/-- Witness for C5: the approved sample request stays approved across a
reject attempt followed by an entry log. -/
theorem status_transitions_terminal_witness :
    ∃ r', (([Op.rejectStep (some "REQ2") (some "no") 99,
          Op.logStep (some "REQ2") (some "entry") 100 "LOG9"].foldl
        (fun d op => applyOp op d) dbSample).requests[1]? = some r' ∧
      r'.id = approvedReq.id ∧ r'.status = approvedReq.status) :=
  status_transitions_terminal
    [Op.rejectStep (some "REQ2") (some "no") 99,
     Op.logStep (some "REQ2") (some "entry") 100 "LOG9"]
    dbSample 1 approvedReq (by decide) (by decide)

/-- The request record a successful `reject` stores and returns. -/
def rejectedOf (request : Request) (rsn : String) (now : Nat) : Request :=
  { request with
    status := "rejected"
    rejectionReason := some rsn
    rejectedAt := some now }

/-- C6: approving a request whose status is not `pending` fails with
`InvalidState` and leaves the store unchanged; after a first successful
reject, a second reject of the same request fails with `InvalidState`,
leaving the store — and in particular the first rejection's
`rejectionReason` and `rejectedAt` — unchanged. -/
theorem non_pending_invalid_state :
    (∀ db rid remarks now enc r, rid ≠ "" →
      db.requests.find? (fun s => s.id == rid) = some r →
      r.status ≠ "pending" →
      approve db (some rid) remarks now enc =
        (db, Except.error Err.invalidState)) ∧
    (∀ db rid rsn now rsn2 now2 request, rid ≠ "" → rsn ≠ "" → rsn2 ≠ "" →
      db.requests.find? (fun s => s.id == rid) = some request →
      request.status = "pending" →
      ∃ db2 r2,
        reject db (some rid) (some rsn) now = (db2, Except.ok r2) ∧
        r2.rejectionReason = some rsn ∧ r2.rejectedAt = some now ∧
        reject db2 (some rid) (some rsn2) now2 =
          (db2, Except.error Err.invalidState) ∧
        db2.requests.find? (fun s => s.id == rid) = some r2) := by
  constructor
  · intro db rid remarks now enc r hrid hfind hs
    have h1 : strFalsy (some rid) = false := by simp [strFalsy, hrid]
    have h2 : (r.status != "pending") = true := by
      simp only [bne_iff_ne, ne_eq]
      exact hs
    simp [approve, h1, hfind, h2]
  · intro db rid rsn now rsn2 now2 request hrid hrsn hrsn2 hfind hpend
    have h1 : strFalsy (some rid) = false := by simp [strFalsy, hrid]
    have h2 : strFalsy (some rsn) = false := by simp [strFalsy, hrsn]
    have h2' : strFalsy (some rsn2) = false := by simp [strFalsy, hrsn2]
    have hguard : (request.status != "pending") = false := by simp [hpend]
    have hpr : ((fun s : Request => s.id == rid)
        (rejectedOf request rsn now)) = true := by
      simpa [rejectedOf] using List.find?_some hfind
    have hfind2 :
        (updateFirst (fun s => s.id == rid)
            (fun _ => rejectedOf request rsn now) db.requests).find?
          (fun s => s.id == rid) = some (rejectedOf request rsn now) :=
      find?_updateFirst _ _ request _ hpr hfind
    refine ⟨{ db with requests := updateFirst (fun s => s.id == rid) (fun _ => rejectedOf request rsn now) db.requests }, rejectedOf request rsn now, ?_, rfl, rfl, ?_, hfind2⟩
    · simp [reject, h1, h2, hfind, hguard, rejectedOf]
    · have h3 : ((rejectedOf request rsn now).status != "pending") =
          true := by simp [rejectedOf]
      simp [reject, h1, h2', hfind2, h3]

/-- Witness for C6: re-approving the already-approved sample request is
rejected with `InvalidState` and the store is returned unchanged. -/
theorem non_pending_invalid_state_witness :
    approve dbApproved1 (some "REQ1") none 99 (fun _ => some "URL2") =
      (dbApproved1, Except.error Err.invalidState) :=
  non_pending_invalid_state.1 dbApproved1 "REQ1" none 99
    (fun _ => some "URL2") approvedReq1 (by decide) (by decide) (by decide)

/-- C7 counterexample: all four body fields are present (none is absent)
and the studentId resolves to a stored student, yet `createRequest`
returns `InvalidArgument` — because the present `reason` is the empty
string, which the handler's JS truthiness check `!reason` treats like an
absent field.  The claim as stated would require a successful append
here. -/
theorem createRequest_empty_field_counterexample :
    (some "" : Option String) ≠ none ∧
    dbSample.users.find? (fun u => u.id == "s1" && u.role == "student") =
      some studentAlice ∧
    createRequest dbSample (some "s1") (some "") (some "17:00") (some 2)
      100 "REQ9" = (dbSample, Except.error Err.invalidArgument) :=
  ⟨by simp, by decide, rfl⟩

/-- C7 (amended): `createRequest` fails with `InvalidArgument` if any of
the four fields is absent — and, more generally, whenever a field is
JS-falsy (empty string, zero duration); given four non-falsy fields it
fails with `NotFound` when the studentId does not resolve to a stored
User with role `student`, and otherwise appends a fresh pending Request
with the new identifier and the studentName denormalized from the
resolved User, returning it and modifying no existing Request. -/
theorem createRequest_spec :
    (∀ db sid rsn et d now nid,
      (sid = none ∨ sid = some "" ∨ rsn = none ∨ rsn = some "" ∨
        et = none ∨ et = some "" ∨ d = none ∨ d = some 0) →
      createRequest db sid rsn et d now nid =
        (db, Except.error Err.invalidArgument)) ∧
    (∀ db sid rsn et d now nid, sid ≠ "" → rsn ≠ "" → et ≠ "" → d ≠ 0 →
      db.users.find? (fun u => u.id == sid && u.role == "student") =
        none →
      createRequest db (some sid) (some rsn) (some et) (some d) now nid =
        (db, Except.error Err.notFound)) ∧
    (∀ db sid rsn et d now nid student,
      sid ≠ "" → rsn ≠ "" → et ≠ "" → d ≠ 0 →
      db.users.find? (fun u => u.id == sid && u.role == "student") =
        some student →
      ∃ req,
        createRequest db (some sid) (some rsn) (some et) (some d) now
            nid =
          ({ db with requests := db.requests ++ [req] }, Except.ok req) ∧
        req.id = nid ∧ req.status = "pending" ∧ req.studentId = sid ∧
        req.studentName = student.name ∧ req.reason = rsn ∧
        req.expectedTime = et ∧ req.duration = d ∧ req.createdAt = now) := by
  refine ⟨?_, ?_, ?_⟩
  · intro db sid rsn et d now nid h
    rcases h with h | h | h | h | h | h | h | h <;> subst h <;>
      simp [createRequest, strFalsy, natFalsy]
  · intro db sid rsn et d now nid h1 h2 h3 h4 hfind
    have f1 : strFalsy (some sid) = false := by simp [strFalsy, h1]
    have f2 : strFalsy (some rsn) = false := by simp [strFalsy, h2]
    have f3 : strFalsy (some et) = false := by simp [strFalsy, h3]
    have f4 : natFalsy (some d) = false := by simp [natFalsy, h4]
    simp [createRequest, f1, f2, f3, f4, hfind]
  · intro db sid rsn et d now nid student h1 h2 h3 h4 hfind
    have f1 : strFalsy (some sid) = false := by simp [strFalsy, h1]
    have f2 : strFalsy (some rsn) = false := by simp [strFalsy, h2]
    have f3 : strFalsy (some et) = false := by simp [strFalsy, h3]
    have f4 : natFalsy (some d) = false := by simp [natFalsy, h4]
    refine ⟨{ id := nid, studentId := sid, studentName := student.name, reason := rsn, expectedTime := et, duration := d, status := "pending", createdAt := now, moderatorRemarks := none, qrCode := none, approvedAt := none, expiresAt := none, qrData := none, rejectionReason := none, rejectedAt := none }, ?_, rfl, rfl, rfl, rfl, rfl, rfl, rfl, rfl⟩
    simp [createRequest, f1, f2, f3, f4, hfind]

/-- Witness for C7 (amended): creating a request with non-falsy fields for
the sample student appends a fresh pending request. -/
theorem createRequest_spec_witness :
    ∃ req,
      createRequest dbSample (some "s1") (some "trip") (some "09:00")
          (some 3) 200 "REQ7" =
        ({ dbSample with requests := dbSample.requests ++ [req] },
          Except.ok req) ∧
      req.id = "REQ7" ∧ req.status = "pending" ∧ req.studentId = "s1" ∧
      req.studentName = studentAlice.name ∧ req.reason = "trip" ∧
      req.expectedTime = "09:00" ∧ req.duration = 3 ∧
      req.createdAt = 200 :=
  createRequest_spec.2.2 dbSample "s1" "trip" "09:00" 3 200 "REQ7"
    studentAlice (by decide) (by decide) (by decide) (by decide)
    (by decide)

/-- Overwrite the `used` flag of a request's stored `qrData` copy (a no-op
when the request carries no payload).  Id and status are untouched. -/
def setQrUsed (b : Bool) (r : Request) : Request :=
  { r with qrData := r.qrData.map (fun q => { q with used := b }) }

/-- Helper: `find?` by id returns related elements (or fails on both
sides) on two request lists that differ only in stored `used` flags. -/
theorem find?_setQrUsed_rel {l1 l2 : List Request}
    (h : List.Forall₂ (fun r1 r2 => ∃ b, r2 = setQrUsed b r1) l1 l2)
    (x : String) :
    (l1.find? (fun s => s.id == x) = none ∧
      l2.find? (fun s => s.id == x) = none) ∨
    ∃ r1 r2 b, l1.find? (fun s => s.id == x) = some r1 ∧
      l2.find? (fun s => s.id == x) = some r2 ∧ r2 = setQrUsed b r1 := by
  induction h with
  | nil => left; simp
  | cons h1 h2 ih =>
    rename_i a bb l1' l2'
    obtain ⟨u, rfl⟩ := h1
    by_cases hid : (a.id == x) = true
    · right
      refine ⟨a, setQrUsed u a, u, ?_, ?_, rfl⟩
      · exact List.find?_cons_of_pos (p := fun s : Request => s.id == x) _ hid
      · exact List.find?_cons_of_pos (p := fun s : Request => s.id == x) _
          (by simpa [setQrUsed] using hid)
    · have hid1 : ¬ ((fun s : Request => s.id == x) a = true) := hid
      have hid2 : ¬ ((fun s : Request => s.id == x) (setQrUsed u a) =
          true) := by simpa [setQrUsed] using hid
      rcases ih with ⟨hn1, hn2⟩ | ⟨r1, r2, u2, hf1, hf2, heq⟩
      · left
        rw [List.find?_cons_of_neg (p := fun s : Request => s.id == x) _ hid1,
          List.find?_cons_of_neg (p := fun s : Request => s.id == x) _ hid2]
        exact ⟨hn1, hn2⟩
      · right
        exact ⟨r1, r2, u2,
          by rw [List.find?_cons_of_neg (p := fun s : Request => s.id == x) _ hid1]
             exact hf1,
          by rw [List.find?_cons_of_neg (p := fun s : Request => s.id == x) _ hid2]
             exact hf2, heq⟩

/-- C8: `verify` is independent of the server-stored copy of the pass's
`used` flag — on any two stores whose request lists differ only in the
stored `qrData.used` values (same requests otherwise, so same existence
and status), it returns the same result for the same scanned payload: the
single-use and expiry decisions read only the scanned payload. -/
theorem verify_ignores_stored_used (db1 db2 : DB) (now : Nat)
    (p : PassPayload)
    (h : List.Forall₂ (fun r1 r2 => ∃ b, r2 = setQrUsed b r1)
      db1.requests db2.requests) :
    verify db2 now p = verify db1 now p := by
  rcases find?_setQrUsed_rel h p.passId with ⟨h1, h2⟩ |
    ⟨r1, r2, b, h1, h2, rfl⟩
  · simp [verify, h1, h2]
  · simp only [verify, h1, h2]
    rfl

/-- Witness for C8: flipping the stored `used` flag of the approved sample
request does not change the verification outcome of a scan. -/
theorem verify_ignores_stored_used_witness :
    verify { dbSample with requests := [pendingReq, setQrUsed true approvedReq] } 100 approvedPayload =
      verify dbSample 100 approvedPayload :=
  verify_ignores_stored_used dbSample
    { dbSample with requests := [pendingReq, setQrUsed true approvedReq] }
    100 approvedPayload
    (List.Forall₂.cons ⟨false, rfl⟩
      (List.Forall₂.cons ⟨true, rfl⟩ List.Forall₂.nil))

/-- C9 counterexample: the empty string is a string supplied as `type`
(and the passId resolves), yet `recordEntry` rejects the call — the JS
truthiness check `!type` treats `""` like a missing field, so not every
string is accepted and stored. -/
theorem recordEntry_empty_type_counterexample :
    (dbSample.requests.find? (fun s => s.id == "REQ1")).isSome = true ∧
    recordEntry dbSample (some "REQ1") (some "") 40 "LOG1" =
      (dbSample, Except.error Err.invalidArgument) :=
  ⟨by decide, rfl⟩

/-- C9 (amended): `recordEntry` never validates `type` against the
recognized values — every nonempty string is accepted and stored verbatim
in the created LogEntry; the empty string alone is rejected, by the
required-fields truthiness check, as if the field were absent. -/
theorem recordEntry_type_unvalidated :
    (∀ db pid t now nid r, pid ≠ "" → t ≠ "" →
      db.requests.find? (fun s => s.id == pid) = some r →
      ∃ log, (recordEntry db (some pid) (some t) now nid).2 =
        Except.ok log ∧ log.type = t ∧
        (recordEntry db (some pid) (some t) now nid).1.logs =
          db.logs ++ [log]) ∧
    (∀ db pid now nid,
      recordEntry db (some pid) (some "") now nid =
        (db, Except.error Err.invalidArgument)) := by
  constructor
  · intro db pid t now nid r hpid ht hfind
    have f1 : strFalsy (some pid) = false := by simp [strFalsy, hpid]
    have f2 : strFalsy (some t) = false := by simp [strFalsy, ht]
    refine ⟨{ id := nid, passId := pid, studentId := r.studentId, studentName := r.studentName, type := t, timestamp := now, reason := r.reason }, ?_, rfl, ?_⟩
    · simp [recordEntry, f1, f2, hfind]
    · simp [recordEntry, f1, f2, hfind]
  · intro db pid now nid
    simp [recordEntry, strFalsy]

/-- Witness for C9 (amended): the unrecognized type string `"banana"` is
accepted and stored verbatim. -/
theorem recordEntry_type_unvalidated_witness :
    ∃ log,
      (recordEntry dbSample (some "REQ1") (some "banana") 40 "LOG1").2 =
        Except.ok log ∧ log.type = "banana" ∧
      (recordEntry dbSample (some "REQ1") (some "banana") 40
          "LOG1").1.logs = dbSample.logs ++ [log] :=
  recordEntry_type_unvalidated.1 dbSample "REQ1" "banana" 40 "LOG1"
    pendingReq (by decide) (by decide) (by decide)

/-- C10: `recordEntry` never checks the Request's status: for every
request resolvable by passId — pending, rejected or approved alike — the
call succeeds, appends a LogEntry snapshotting studentId, studentName and
reason from the request, and returns it; when the request carries no
embedded pass payload, the request list is left entirely unchanged while
the LogEntry is still created and the call still reports success. -/
theorem recordEntry_ignores_status (db : DB) (pid t : String) (now : Nat)
    (nid : String) (r : Request) (hpid : pid ≠ "") (ht : t ≠ "")
    (hfind : db.requests.find? (fun s => s.id == pid) = some r) :
    (recordEntry db (some pid) (some t) now nid).2 =
      Except.ok { id := nid, passId := pid, studentId := r.studentId, studentName := r.studentName, type := t, timestamp := now, reason := r.reason } ∧
    (recordEntry db (some pid) (some t) now nid).1.logs =
      db.logs ++ [{ id := nid, passId := pid, studentId := r.studentId, studentName := r.studentName, type := t, timestamp := now, reason := r.reason }] ∧
    (r.qrData = none →
      (recordEntry db (some pid) (some t) now nid).1.requests =
        db.requests) := by
  have f1 : strFalsy (some pid) = false := by simp [strFalsy, hpid]
  have f2 : strFalsy (some t) = false := by simp [strFalsy, ht]
  refine ⟨?_, ?_, ?_⟩
  · simp [recordEntry, f1, f2, hfind]
  · simp [recordEntry, f1, f2, hfind]
  · intro hq
    simp only [recordEntry, f1, f2, Bool.or_self, Bool.false_eq_true,
      if_false, hfind, hq]
    exact updateFirst_self _ r _ hfind

/-- A store holding one rejected request and no others. -/
def dbRejected : DB :=
  { users := [studentAlice], requests := [rejectedOf pendingReq "no" 30],
    logs := [] }

/-- Witness for C10: logging an exit against a rejected, never-approved
request succeeds and leaves the request list unchanged. -/
theorem recordEntry_ignores_status_witness :
    (recordEntry dbRejected (some "REQ1") (some "exit") 50 "LOG2").2 =
      Except.ok { id := "LOG2", passId := "REQ1", studentId := "s1", studentName := "Alice", type := "exit", timestamp := 50, reason := "medical" } ∧
    (recordEntry dbRejected (some "REQ1") (some "exit") 50
        "LOG2").1.requests = dbRejected.requests :=
  ⟨(recordEntry_ignores_status dbRejected "REQ1" "exit" 50 "LOG2"
      (rejectedOf pendingReq "no" 30) (by decide) (by decide)
      (by decide)).1,
   (recordEntry_ignores_status dbRejected "REQ1" "exit" 50 "LOG2"
      (rejectedOf pendingReq "no" 30) (by decide) (by decide)
      (by decide)).2.2 rfl⟩

end GatePass
